import Mathlib

/-
Verification of the configdot INI parser/serializer/merge engine.

The development shallowly embeds the code of `src/configdot/utils.py`
(the functions exported by `configdot/__init__.py`: `_parse_config_lines`,
`_traverse`, `_get_attr_by_name`, `update_config`, `_dump_config`,
`dump_config`) and of `ConfigContainer.__setattr__` from
`src/configdot/configdot.py`.

Modelling conventions:
  - Python objects `ConfigItem` / `ConfigContainer` form a mutable object
    graph during parsing (the parser's `sections` list aliases containers
    that also sit in the tree).  The parser is therefore embedded with an
    explicit heap: containers are heap cells addressed by `Nat` ids, and
    `setattr` is a heap update.  Pure trees (`ConfigEntry`,
    `ConfigContainer`) are read back from the heap at the end.
  - `ast.literal_eval` and `pprint.pformat` are external library
    functions; they are passed as parameters (`litEval : String → Option
    PyVal`, `pformat : PyVal → String`).  Concrete runs instantiate them
    with finite tables (`litEval0`, `pformat0`) that record the actual
    CPython behaviour on the handful of strings and values involved.
  - The regexes `RE_SECTION_HEADER`, `RE_COMMENT`, `RE_ITEM_DEF` and
    `RE_WHITESPACE` are deterministic on the line grammar (no productive
    backtracking), and are embedded as direct character scanners; the
    `\w` class is modelled by its ASCII part (alphanumeric or underscore).
  - Python `dict` is modelled as an association list with unique keys;
    assignment replaces in place (keeping the key's position) or appends.
-/

namespace Configdot

/-- Dynamically typed values as produced by evaluating item value text
with `ast.literal_eval`.  `inf` stands for the IEEE float infinity, which
`ast.literal_eval` yields for overflowing float literals such as
`1e1000`. -/
inductive PyVal where
  | int (n : Int)
  | str (s : String)
  | pbool (b : Bool)
  | pnone
  | inf
  | list (l : List PyVal)

/-- Word character class: ASCII part of the regex class used by
`RE_ITEM_DEF` and `RE_SECTION_HEADER`. -/
def isWordChar (c : Char) : Bool := c.isAlphanum || c = '_'

/-- Model of Python `str.strip()`: drop leading and trailing
whitespace. -/
def trimStr (s : String) : String :=
  String.mk (((s.toList.dropWhile Char.isWhitespace).reverse.dropWhile
    Char.isWhitespace).reverse)

/-- Split a character list at every occurrence of `c` (the groups do not
contain `c`; `n` separators produce `n + 1` groups). -/
def splitChars (c : Char) : List Char → List (List Char)
  | [] => [[]]
  | x :: xs =>
      if x = c then [] :: splitChars c xs
      else
        match splitChars c xs with
        | [] => [[x]]
        | g :: gs => (x :: g) :: gs

/-- Model of Python `str.split(sep)` for a one-character separator (used
by the code as `split('.')` and `split('\n')`): always returns at least
one group. -/
def splitOnChar (c : Char) (s : String) : List String :=
  (splitChars c s.toList).map String.mk

/-- Model of `_parse_section_header`: the regex
`\s*(\[+)([\w-]+)(\]+)\s*$` plus the check (done in the Python code) that
the opening and closing bracket runs have equal length.  Returns the
section name and its level (the bracket count). -/
def parseSectionHeader (li : String) : Option (String × Nat) :=
  let cs := li.toList.dropWhile Char.isWhitespace
  let opening := cs.takeWhile (· = '[')
  let cs1 := cs.dropWhile (· = '[')
  let nm := cs1.takeWhile (fun c => isWordChar c || c = '-')
  let cs2 := cs1.dropWhile (fun c => isWordChar c || c = '-')
  let closing := cs2.takeWhile (· = ']')
  let cs3 := cs2.dropWhile (· = ']')
  if opening.length ≥ 1 && nm.length ≥ 1 && closing.length ≥ 1 &&
      cs3.all Char.isWhitespace && opening.length == closing.length then
    some (String.mk nm, opening.length)
  else
    none

/-- Model of matching `RE_COMMENT` (`\s*[#;]\s*(.*)`): on success returns
group 1, the comment text after the comment sign and any following
whitespace (trailing whitespace is kept, as in the regex). -/
def matchComment (li : String) : Option String :=
  match li.toList.dropWhile Char.isWhitespace with
  | [] => none
  | c :: rest =>
      if c = '#' || c = ';' then
        some (String.mk (rest.dropWhile Char.isWhitespace))
      else
        none

/-- Model of matching `RE_WHITESPACE` (`\s*$`): the line is empty or
whitespace only. -/
def isBlankLine (li : String) : Bool := li.toList.all Char.isWhitespace

/-- Model of `_parse_item_def`: the regex `\s*(\w+)\s*=\s*(.*?)\s*$`.
Returns the item name and the value text with surrounding whitespace
stripped. -/
def parseItemDef (li : String) : Option (String × String) :=
  let cs := li.toList.dropWhile Char.isWhitespace
  let nm := cs.takeWhile isWordChar
  let cs1 := (cs.dropWhile isWordChar).dropWhile Char.isWhitespace
  if nm.isEmpty then none
  else
    match cs1 with
    | '=' :: rest => some (String.mk nm, trimStr (String.mk rest))
    | _ => none

/-- Pure config tree entry: a `ConfigItem` (name, value, comment) or a
section, i.e. a nested `ConfigContainer` (comment plus named entries). -/
inductive ConfigEntry where
  | item (name : String) (value : PyVal) (comm : String)
  | sec (comm : String) (items : List (String × ConfigEntry))

/-- Pure view of a `ConfigContainer`: its `_items` dict (as an
association list in insertion order) and its `_comment`. -/
structure ConfigContainer where
  items : List (String × ConfigEntry)
  comm : String

/-- Model of Python dict assignment `d[k] = v` on an association list
with unique keys: replace the value in place if the key is present
(keeping its position), otherwise append the new pair at the end. -/
def insertReplace {α : Type} : List (String × α) → String → α → List (String × α)
  | [], k, v => [(k, v)]
  | (k0, v0) :: rest, k, v =>
      if k0 = k then (k0, v) :: rest else (k0, v0) :: insertReplace rest k v

/-- Membership test `name in container` (`ConfigContainer.__contains__`),
on the association list of entries. -/
def containsName {α : Type} (items : List (String × α)) (k : String) : Bool :=
  items.any (fun p => p.1 = k)

/-- Heap entry of a container during parsing: either an item, or a
reference to another container heap cell (a subsection). -/
inductive HEntry where
  | it (name : String) (value : PyVal) (comm : String)
  | ref (id : Nat)

/-- Heap cell for one `ConfigContainer` object built by the parser. -/
structure HCont where
  comm : String
  items : List (String × HEntry)

/-- State of the line loop of `_parse_config_lines`.  `heap` holds every
`ConfigContainer` allocated so far (cell 0 is the root `config`);
`sections` is the list of `(section, level)` pairs (containers by heap
id); `currentSection`, `currentItemName`, `commentLines` and
`currentDefLines` are the loop variables of the same names. -/
structure ParseState where
  heap : List HCont
  sections : List (Nat × Nat)
  currentSection : Option Nat
  currentItemName : Option String
  commentLines : List String
  currentDefLines : List String

/-- Initial state of `_parse_config_lines`: a fresh empty root container
at heap id 0, registered in `sections` at level 0. -/
def initState : ParseState :=
  { heap := [⟨"", []⟩], sections := [(0, 0)], currentSection := none,
    currentItemName := none, commentLines := [], currentDefLines := [] }

/-- Model of `setattr(container, name, entry)` on a heap cell, where the
assigned value is a `ConfigItem` or `ConfigContainer`: dict assignment on
the cell's `_items` (first branch of `ConfigContainer.__setattr__`). -/
def heapSet (heap : List HCont) (i : Nat) (nm : String) (e : HEntry) : List HCont :=
  match heap[i]? with
  | some hc => heap.set i ⟨hc.comm, insertReplace hc.items nm e⟩
  | none => heap

/-- Membership test `name in heap-cell i` during parsing. -/
def heapContains (heap : List HCont) (i : Nat) (nm : String) : Bool :=
  match heap[i]? with
  | some hc => containsName hc.items nm
  | none => false

/-- Lookup of the entry `nm` of heap cell `i`. -/
def lookupHeapEntry (heap : List HCont) (i : Nat) (nm : String) : Option HEntry :=
  match heap[i]? with
  | some hc => List.lookup nm hc.items
  | none => none

/-- One iteration of the line loop of `_parse_config_lines` for line `li`
with 1-based number `lnum`.  The branches follow the Python code in
order: section header, comment, whitespace, new item definition, then
continuation-or-syntax-error.  Raised `ValueError`s are modelled as
`Except.error` with the message built by the code. -/
def step (litEval : String → Option PyVal) (lnum : Nat) (s : ParseState)
    (li : String) : Except String ParseState :=
  match parseSectionHeader li with
  | some (secname, secLevel) =>
      if s.currentItemName.isSome then
        .error ("could not evaluate definition at line " ++ toString lnum)
      else
        let comment := String.intercalate "\n" s.commentLines
        let newId := s.heap.length
        let heap1 := s.heap ++ [⟨comment, []⟩]
        let sections1 := s.sections ++ [(newId, secLevel)]
        let parents := sections1.filter (fun p => p.2 = secLevel - 1)
        match parents.getLast? with
        | none =>
            .error ("subsection outside a parent section at line " ++ toString lnum)
        | some (pid, _) =>
            .ok { heap := heapSet heap1 pid secname (.ref newId),
                  sections := sections1,
                  currentSection := some newId,
                  currentItemName := none,
                  commentLines := [],
                  currentDefLines := s.currentDefLines }
  | none =>
  match matchComment li with
  | some cmnt =>
      if s.currentItemName.isSome then
        .error ("could not evaluate definition at line " ++ toString lnum)
      else
        .ok { s with commentLines := s.commentLines ++ [cmnt] }
  | none =>
  if isBlankLine li then
    if s.currentItemName.isSome then
      .error ("could not evaluate definition at line " ++ toString lnum)
    else
      .ok s
  else
  match parseItemDef li with
  | some (itemName, val) =>
      if s.currentItemName.isSome then
        .error ("could not evaluate definition at line " ++ toString lnum)
      else
        match s.currentSection with
        | none =>
            .error ("item definition outside of a section on line " ++ toString lnum)
        | some cid =>
            if heapContains s.heap cid itemName then
              .error ("duplicate definition on line " ++ toString lnum)
            else
              match litEval val with
              | some v =>
                  .ok { s with
                        heap := heapSet s.heap cid itemName
                          (.it itemName v (String.intercalate "\n" s.commentLines)),
                        commentLines := [],
                        currentDefLines := [],
                        currentItemName := none }
              | none =>
                  .ok { s with
                        currentItemName := some itemName,
                        currentDefLines := s.currentDefLines ++ [val] }
  | none =>
      match s.currentItemName with
      | none => .error ("syntax error at line " ++ toString lnum ++ ": " ++ li)
      | some pname =>
          let defLines1 := s.currentDefLines ++ [trimStr li]
          let valNew := String.join defLines1
          match litEval valNew with
          | some v =>
              match s.currentSection with
              | none => .error "internal error: no current section"
              | some cid =>
                  .ok { s with
                        heap := heapSet s.heap cid pname
                          (.it pname v (String.intercalate " " s.commentLines)),
                        commentLines := [],
                        currentDefLines := [],
                        currentItemName := none }
          | none =>
              .ok { s with currentDefLines := defLines1 }

/-- Run of the line loop from a given state and 1-based line number. -/
def runLines (litEval : String → Option PyVal) :
    ParseState → Nat → List String → Except String ParseState
  | s, _, [] => .ok s
  | s, lnum, li :: rest => do
      runLines litEval (← step litEval lnum s li) (lnum + 1) rest

/-- Read one heap entry back into a pure config entry, with fuel for the
reference chains (which always point to strictly larger heap ids, so
`heap.length + 1` fuel always suffices). -/
def readbackEntry (heap : List HCont) : Nat → HEntry → Option ConfigEntry
  | _, .it n v c => some (.item n v c)
  | 0, .ref _ => none
  | fuel + 1, .ref i =>
      match heap[i]? with
      | some hc =>
          (hc.items.mapM (fun kv =>
            (readbackEntry heap fuel kv.2).map (fun ce => (kv.1, ce)))).map
            (fun its => ConfigEntry.sec hc.comm its)
      | none => none

/-- Read the root container (heap cell 0) back into a pure tree. -/
def readbackRoot (heap : List HCont) : Option ConfigContainer :=
  match heap[0]? with
  | some hc =>
      match hc.items.mapM (fun kv =>
          (readbackEntry heap (heap.length + 1) kv.2).map (fun ce => (kv.1, ce))) with
      | some its => some ⟨its, hc.comm⟩
      | none => none
  | none => none

/-- Model of `_parse_config_lines`: run the line loop from the initial
state, apply the final pending-definition check (which reports the number
of the last line), and read the root container back from the heap. -/
def parseConfigLines (litEval : String → Option PyVal) (lines : List String) :
    Except String ConfigContainer := do
  let s ← runLines litEval initState 1 lines
  if s.currentItemName.isSome then
    .error ("could not evaluate definition at line " ++ toString lines.length)
  else
    match readbackRoot s.heap with
    | some c => .ok c
    | none => .error "internal error: readback failed"

mutual

/-- Model of `_traverse` on an entry list: yields `(attr, entry)` pairs
in pre-order, where `attr` is the fully qualified dotted attribute
name. -/
def traverseItems : List (String × ConfigEntry) → List (String × ConfigEntry)
  | [] => []
  | (n, e) :: rest => (n, e) :: (traverseEntry n e ++ traverseItems rest)

/-- Recursive part of `_traverse`: the qualified descendants of one
entry (empty for items). -/
def traverseEntry (n : String) : ConfigEntry → List (String × ConfigEntry)
  | .item .. => []
  | .sec _ its => (traverseItems its).map (fun p => (n ++ "." ++ p.1, p.2))

end

/-- Model of `ConfigItem.item_def`: the line `name = pformat(value)`. -/
def itemDef (pformat : PyVal → String) (nm : String) (v : PyVal) : String :=
  nm ++ " = " ++ pformat v

/-- Lines emitted by `_dump_config` for one traversal pair: the comment
lines (one per newline-separated segment, prefixed `# `, only when the
comment is non-empty), then a bracketed header for a container (bracket
count = dots in the qualified name + 1) or the item definition line for
an item. -/
def dumpEntryLines (pformat : PyVal → String) (p : String × ConfigEntry) :
    List String :=
  let attr := p.1
  let nm := (splitOnChar '.' attr).getLastD ""
  let commentLines (c : String) : List String :=
    if c = "" then [] else (splitOnChar '\n' c).map (fun cl => "# " ++ cl)
  match p.2 with
  | .sec c _ =>
      let level := attr.toList.count '.' + 1
      commentLines c ++
        [String.mk (List.replicate level '[') ++ nm ++
          String.mk (List.replicate level ']')]
  | .item inm v c => commentLines c ++ [itemDef pformat inm v]

/-- Model of `dump_config`: the `_dump_config` lines of the traversal of
the container, joined with newlines. -/
def dumpConfig (pformat : PyVal → String) (cfg : ConfigContainer) : String :=
  String.intercalate "\n" (((traverseItems cfg.items).map (dumpEntryLines pformat)).flatten)

/-- Python exceptions distinguished by `update_config`'s `except` clauses:
`KeyError` (missing dict key, caught) and `TypeError` (subscripting an
object that is not subscriptable, such as a `ConfigItem` — not caught). -/
inductive PyErr where
  | key
  | type

/-- Model of `cfg[name]` (`ConfigContainer.__getitem__`) on an entry:
a dict lookup raising `KeyError` when absent; subscripting a
`ConfigItem` raises `TypeError`. -/
def getFromEntry : ConfigEntry → List String → Except PyErr ConfigEntry
  | e, [] => .ok e
  | .sec _ its, n :: rest =>
      match List.lookup n its with
      | some e2 => getFromEntry e2 rest
      | none => .error .key
  | .item .., _ :: _ => .error .type

/-- Model of `_get_attr_by_name cfg name_list` from the root container:
pop the first name with `cfg[first]` and recurse while names remain. -/
def getAttrByName (cfg : ConfigContainer) : List String → Except PyErr ConfigEntry
  | [] => .error .key
  | n :: rest =>
      match List.lookup n cfg.items with
      | some e => getFromEntry e rest
      | none => .error .key

/-- Functional counterpart of `setattr(parent, item_name, entry)` where
`parent` is the container at `path` in the tree: dict assignment on that
container's `_items`.  (In the merge code the resolved parent is always a
container when this is reached; paths that do not resolve leave the tree
unchanged.) -/
def setInItems : List (String × ConfigEntry) → List String → String →
    ConfigEntry → List (String × ConfigEntry)
  | items, [], n, e => insertReplace items n e
  | items, p :: rest, n, e =>
      items.map (fun kv =>
        if kv.1 = p then
          (kv.1, match kv.2 with
                 | .sec c its => .sec c (setInItems its rest n e)
                 | .item a b c => .item a b c)
        else kv)

/-- Tree update for `setattr` on the container resolved at `parentPath`
of the root. -/
def setEntryAt (cfg : ConfigContainer) (parentPath : List String) (n : String)
    (e : ConfigEntry) : ConfigContainer :=
  ⟨setInItems cfg.items parentPath n e, cfg.comm⟩

/-- Replace the comment of one entry (`obj._comment = c`). -/
def setEntryComment (c : String) : ConfigEntry → ConfigEntry
  | .item n v _ => .item n v c
  | .sec _ its => .sec c its

/-- Functional counterpart of `item_to_update._comment = ...` for the
entry resolved at a (non-empty) path of the root. -/
def setCommentIn : List (String × ConfigEntry) → List String → String →
    List (String × ConfigEntry)
  | items, [], _ => items
  | items, [n], c =>
      items.map (fun kv => if kv.1 = n then (kv.1, setEntryComment c kv.2) else kv)
  | items, p :: rest, c =>
      items.map (fun kv =>
        if kv.1 = p then
          (kv.1, match kv.2 with
                 | .sec cm its => .sec cm (setCommentIn its rest c)
                 | .item a b cm => .item a b cm)
        else kv)

/-- Tree update for the comment of the entry at `path` of the root. -/
def setCommentAt (cfg : ConfigContainer) (path : List String) (c : String) :
    ConfigContainer :=
  ⟨setCommentIn cfg.items path c, cfg.comm⟩

/-- The `create_new_items` argument of `update_config`: a bool or a list
of qualified section names (other types are rejected before traversal
begins). -/
inductive CreateNewItems where
  | bool (b : Bool)
  | list (l : List String)

/-- Test `create_new_items is True or (isinstance(create_new_items, list)
and '.'.join(parent_name) in create_new_items)`. -/
def cniAllows (cni : CreateNewItems) (parentName : List String) : Bool :=
  match cni with
  | .bool b => b
  | .list l => l.contains (String.intercalate "." parentName)

/-- Comment of an entry (`entry._comment`). -/
def entryComm : ConfigEntry → String
  | .item _ _ c => c
  | .sec c _ => c

/-- One iteration of the loop of `update_config` (utils.py) for a
traversal pair `(name, item_new)` of `cfg_new`, applied to the current
state of `cfg_to_update`.  `KeyError` on parent resolution is the
warned-and-skipped "orphaned" case; a `TypeError` (resolution descending
into a `ConfigItem`) is not caught by the code and aborts the merge. -/
def mergeStep (createNewSections : Bool) (cni : CreateNewItems)
    (updateComments : Bool) (acc : ConfigContainer)
    (p : String × ConfigEntry) : Except String ConfigContainer :=
  let nameList := splitOnChar '.' p.1
  let itemName := nameList.getLastD ""
  let parentName := nameList.dropLast
  let parentRes : Except PyErr Unit :=
    if parentName.isEmpty then .ok () else (getAttrByName acc parentName).map (fun _ => ())
  match parentRes with
  | .error .key => .ok acc
  | .error .type => .error "TypeError: ConfigItem object is not subscriptable"
  | .ok _ =>
      match getAttrByName acc nameList with
      | .ok itemToUpdate =>
          match p.2 with
          | .sec scomm _ =>
              .ok (if updateComments then setCommentAt acc nameList scomm else acc)
          | .item sname sval scomm =>
              let comment := if updateComments then scomm else entryComm itemToUpdate
              .ok (setEntryAt acc parentName itemName (.item sname sval comment))
      | .error .key =>
          match p.2 with
          | .sec scomm _ =>
              .ok (if createNewSections then
                     setEntryAt acc parentName itemName (.sec scomm [])
                   else acc)
          | .item _ sval scomm =>
              if cniAllows cni parentName then
                .ok (setEntryAt acc parentName itemName (.item itemName sval scomm))
              else
                .ok acc
      | .error .type => .error "TypeError: ConfigItem object is not subscriptable"

/-- Model of `update_config(cfg_to_update, cfg_new, create_new_sections,
create_new_items, update_comments)`: fold `mergeStep` over the pre-order
traversal of `cfg_new`, threading the mutated target. -/
def updateConfig (cfgToUpdate cfgNew : ConfigContainer)
    (createNewSections : Bool) (cni : CreateNewItems)
    (updateComments : Bool) : Except String ConfigContainer :=
  (traverseItems cfgNew.items).foldlM
    (mergeStep createNewSections cni updateComments) cfgToUpdate

/-- Value assigned through `ConfigContainer.__setattr__`: either a
`ConfigItem`/`ConfigContainer` object (an entry) or a raw value. -/
inductive SetVal where
  | ent (e : ConfigEntry)
  | raw (v : PyVal)

mutual

/-- Model of the `elif attr in self._items` branch of
`ConfigContainer.__setattr__` for a raw value:
`self.__dict__['_items'][attr].value = value` — replace the `value` field
of the entry stored under `attr`, leaving everything else in place. -/
def setattrItems : List (String × ConfigEntry) → String → PyVal →
    List (String × ConfigEntry)
  | [], _, _ => []
  | (k, e) :: rest, attr, rv =>
      (if k = attr then (k, setValueOn e rv) else (k, e)) :: setattrItems rest attr rv

/-- Effect of `obj.value = rv` on the entry `obj`.  For a `ConfigItem`
this sets its `value` field.  For a `ConfigContainer`, attribute
assignment re-enters `ConfigContainer.__setattr__` with name `value` and
a raw value: it updates an existing `value` entry in place or implicitly
creates a new `ConfigItem` called `value` inside the container. -/
def setValueOn : ConfigEntry → PyVal → ConfigEntry
  | .item n _ cm, rv => .item n rv cm
  | .sec cm its, rv =>
      .sec cm (if containsName its "value" then setattrItems its "value" rv
               else its ++ [("value", .item "value" rv "")])

end

/-- Model of `ConfigContainer.__setattr__` (configdot.py lines 151-163),
with the branches in source order: an assigned `ConfigItem`/
`ConfigContainer` replaces or creates the entry directly; assigning to
`_comment` stores the comment (comments are modelled as strings, so the
raw value must be a `.str`; the repository only ever assigns string
comments); a raw value for an existing name updates that entry's `value`
attribute in place; otherwise a new `ConfigItem` is implicitly created. -/
def setattrC (c : ConfigContainer) (attr : String) (v : SetVal) : ConfigContainer :=
  match v with
  | .ent e => ⟨insertReplace c.items attr e, c.comm⟩
  | .raw rv =>
      if attr = "_comment" then
        match rv with
        | .str s => ⟨c.items, s⟩
        | _ => c
      else if containsName c.items attr then
        ⟨setattrItems c.items attr rv, c.comm⟩
      else
        ⟨c.items ++ [(attr, .item attr rv "")], c.comm⟩

/-- Table recording the behaviour of `ast.literal_eval` on the value
texts arising in the concrete runs of this development:
`1e1000` overflows to the float infinity; `inf` and the partial text
`[1,` are not valid literals (a `ValueError`/`SyntaxError` in Python,
hence `none` here). -/
def litEval0 : String → Option PyVal := fun s =>
  if s = "1" then some (.int 1)
  else if s = "2" then some (.int 2)
  else if s = "5" then some (.int 5)
  else if s = "1e1000" then some .inf
  else if s = "[1,2]" then some (.list [.int 1, .int 2])
  else none

/-- Scalar case of the `pprint.pformat` model below (nested lists do not
occur in this development). -/
def pformatScalar : PyVal → String
  | .int n => toString n
  | .str s => "\x27" ++ s ++ "\x27"
  | .pbool b => if b then "True" else "False"
  | .pnone => "None"
  | .inf => "inf"
  | .list _ => ""

/-- Model of `pprint.pformat` on the (small, single-line) values used in
the concrete runs: scalars and flat lists of scalars; in particular
`pprint.pformat(float('inf'))` is the string `inf`, which
`ast.literal_eval` cannot evaluate. -/
def pformat0 : PyVal → String
  | .list l => "[" ++ String.intercalate ", " (l.map pformatScalar) ++ "]"
  | v => pformatScalar v

/-! Helper lemmas about the association-list dict model and the parser
heap. -/

theorem lookup_insertReplace {α : Type} (l : List (String × α)) (k : String) (v : α) :
    List.lookup k (insertReplace l k v) = some v := by
  induction l with
  | nil => simp [insertReplace, List.lookup]
  | cons p rest ih =>
      obtain ⟨k0, v0⟩ := p
      by_cases h : k0 = k
      · simp [insertReplace, h, List.lookup]
      · have hne : (k == k0) = false := beq_eq_false_iff_ne.mpr (fun e => h e.symm)
        simp [insertReplace, h, List.lookup, hne, ih]

theorem heapContains_lt (heap : List HCont) (i : Nat) (nm : String)
    (h : heapContains heap i nm = true) : i < heap.length := by
  unfold heapContains at h
  cases hh : heap[i]? with
  | none => rw [hh] at h; simp at h
  | some hc => exact (List.getElem?_eq_some.mp hh).1

theorem lookupHeapEntry_heapSet (heap : List HCont) (i : Nat) (nm : String)
    (e : HEntry) (h : i < heap.length) :
    lookupHeapEntry (heapSet heap i nm e) i nm = some e := by
  obtain ⟨hc, hhc⟩ : ∃ hc, heap[i]? = some hc := by
    cases hh : heap[i]? with
    | none => exact absurd (List.getElem?_eq_none_iff.mp hh) (by omega)
    | some hc => exact ⟨hc, rfl⟩
  unfold heapSet lookupHeapEntry
  rw [hhc]
  simp only
  rw [List.getElem?_set_eq_of_lt _ h]
  simp [lookup_insertReplace]

theorem getElem?_heapSet_ne (heap : List HCont) (i j : Nat) (nm : String)
    (e : HEntry) (h : i ≠ j) : (heapSet heap i nm e)[j]? = heap[j]? := by
  unfold heapSet
  cases hh : heap[i]? with
  | none => rfl
  | some hc => exact List.getElem?_set_ne h

/-- Behaviour of the section-header branch of the line loop: when no
definition is pending, a new empty container (with the pending comments
as its comment) is allocated, registered in `sections` at the header's
level, and attached — under the header's name — to the most recently
opened container whose level is one less; if there is no such container,
the loop raises the missing-parent error for this line. -/
theorem step_header (litEval : String → Option PyVal) (lnum : Nat)
    (s : ParseState) (li secname : String) (secLevel : Nat)
    (hhead : parseSectionHeader li = some (secname, secLevel))
    (hpend : s.currentItemName = none) :
    step litEval lnum s li =
      (match ((s.sections ++ [(s.heap.length, secLevel)]).filter
          (fun p => p.2 = secLevel - 1)).getLast? with
       | none => .error ("subsection outside a parent section at line " ++ toString lnum)
       | some (pid, _) =>
           .ok { heap := heapSet (s.heap ++ [⟨String.intercalate "\n" s.commentLines, []⟩])
                   pid secname (.ref s.heap.length),
                 sections := s.sections ++ [(s.heap.length, secLevel)],
                 currentSection := some s.heap.length,
                 currentItemName := none,
                 commentLines := [],
                 currentDefLines := s.currentDefLines }) := by
  simp only [step, hhead, hpend]
  simp

/-- When the parent of a header resolves to the container `pid`, the
step succeeds, stores a reference to the freshly allocated container
under the header's name in `pid` (replacing any previous entry of that
name), and the fresh container carries the newline-joined pending
comments and no items. -/
theorem step_header_resolved (litEval : String → Option PyVal) (lnum : Nat)
    (s : ParseState) (li secname : String) (secLevel : Nat) (pid plevel : Nat)
    (hhead : parseSectionHeader li = some (secname, secLevel))
    (hpend : s.currentItemName = none)
    (hlast : ((s.sections ++ [(s.heap.length, secLevel)]).filter
        (fun p => p.2 = secLevel - 1)).getLast? = some (pid, plevel))
    (hlt : pid < s.heap.length) :
    ∃ s', step litEval lnum s li = .ok s' ∧
      lookupHeapEntry s'.heap pid secname = some (.ref s.heap.length) ∧
      s'.heap[s.heap.length]? = some ⟨String.intercalate "\n" s.commentLines, []⟩ := by
  refine ⟨_, by rw [step_header litEval lnum s li secname secLevel hhead hpend, hlast], ?_, ?_⟩
  · exact lookupHeapEntry_heapSet _ _ _ _ (by simp; omega)
  · rw [getElem?_heapSet_ne _ _ _ _ _ (by omega)]
    exact List.getElem?_concat_length _ _

/-- Behaviour of the duplicate check of the new-item-definition branch:
with no pending definition and a current section that already contains
the defined name, the step raises the duplicate error for this line. -/
theorem step_duplicate (litEval : String → Option PyVal) (lnum : Nat)
    (s : ParseState) (li nm val : String) (cid : Nat)
    (hpend : s.currentItemName = none)
    (hhead : parseSectionHeader li = none)
    (hcom : matchComment li = none)
    (hblank : isBlankLine li = false)
    (hdef : parseItemDef li = some (nm, val))
    (hcur : s.currentSection = some cid)
    (hdup : heapContains s.heap cid nm = true) :
    step litEval lnum s li = .error ("duplicate definition on line " ++ toString lnum) := by
  simp only [step, hhead, hcom, hblank, hdef, hcur, hpend, hdup]
  simp

/-- Behaviour of an item-definition line whose value text evaluates
immediately: the created item carries the newline-joined pending
comments. -/
theorem step_item_immediate (litEval : String → Option PyVal) (lnum : Nat)
    (s : ParseState) (li nm val : String) (v : PyVal) (cid : Nat)
    (hpend : s.currentItemName = none)
    (hhead : parseSectionHeader li = none)
    (hcom : matchComment li = none)
    (hblank : isBlankLine li = false)
    (hdef : parseItemDef li = some (nm, val))
    (hcur : s.currentSection = some cid)
    (hdup : heapContains s.heap cid nm = false)
    (hval : litEval val = some v)
    (hlt : cid < s.heap.length) :
    ∃ s', step litEval lnum s li = .ok s' ∧
      lookupHeapEntry s'.heap cid nm =
        some (.it nm v (String.intercalate "\n" s.commentLines)) := by
  have hstep : step litEval lnum s li =
      .ok { s with
            heap := heapSet s.heap cid nm
              (.it nm v (String.intercalate "\n" s.commentLines)),
            commentLines := [], currentDefLines := [], currentItemName := none } := by
    simp only [step, hhead, hcom, hblank, hdef, hcur, hpend, hdup, hval]
    simp [hcur]
  exact ⟨_, hstep, lookupHeapEntry_heapSet _ _ _ _ hlt⟩

/-- Behaviour of a continuation line that completes a pending
definition: the created item carries the pending comments joined with a
single space (not a newline). -/
theorem step_item_continuation (litEval : String → Option PyVal) (lnum : Nat)
    (s : ParseState) (li : String) (pname : String) (v : PyVal) (cid : Nat)
    (hhead : parseSectionHeader li = none)
    (hcom : matchComment li = none)
    (hblank : isBlankLine li = false)
    (hdef : parseItemDef li = none)
    (hpend : s.currentItemName = some pname)
    (hval : litEval (String.join (s.currentDefLines ++ [trimStr li])) = some v)
    (hcur : s.currentSection = some cid)
    (hlt : cid < s.heap.length) :
    ∃ s', step litEval lnum s li = .ok s' ∧
      lookupHeapEntry s'.heap cid pname =
        some (.it pname v (String.intercalate " " s.commentLines)) := by
  have hstep : step litEval lnum s li =
      .ok { s with
            heap := heapSet s.heap cid pname
              (.it pname v (String.intercalate " " s.commentLines)),
            commentLines := [], currentDefLines := [], currentItemName := none } := by
    simp only [step, hhead, hcom, hblank, hdef, hpend, hval, hcur]
    simp [hcur]
  exact ⟨_, hstep, lookupHeapEntry_heapSet _ _ _ _ hlt⟩

/-! Claim theorems. -/

/-- C1: the round-trip contract `parse(dump_config(T)) == T` promised by
`dump_config`'s docstring fails on the code: the tree parsed from
`[a]` / `x = 1e1000` holds the float infinity, `dump_config` prints it
as `x = inf`, and `_parse_config_lines` cannot evaluate `inf`, so
re-parsing the dumped text raises (unterminated definition at line 2)
instead of reproducing the tree. -/
theorem C1_roundtrip_fails_on_float_inf :
    parseConfigLines litEval0 ["[a]", "x = 1e1000"] =
      .ok ⟨[("a", .sec "" [("x", .item "x" .inf "")])], ""⟩ ∧
    parseConfigLines litEval0
        (splitOnChar '\n' (dumpConfig pformat0
          ⟨[("a", .sec "" [("x", .item "x" .inf "")])], ""⟩)) =
      .error "could not evaluate definition at line 2" :=
  ⟨rfl, rfl⟩

/-- C2: merging with `create_new_sections = False` and
`create_new_items = False` updates the existing item `section1.var1` to
the source value 2 (keeping the target's comment, since comments are not
updated), does not create `section2.newvar`, does not create `section3`,
and raises no error. -/
theorem C2_update_existing_items_only :
    updateConfig
      ⟨[("section1", .sec "" [("var1", .item "var1" (.int 1) "c1")]),
        ("section2", .sec "" [])], ""⟩
      ⟨[("section1", .sec "" [("var1", .item "var1" (.int 2) "c2")]),
        ("section2", .sec "" [("newvar", .item "newvar" (.int 5) "c3")]),
        ("section3", .sec "" [("x", .item "x" (.int 1) "")])], ""⟩
      false (.bool false) false =
    .ok ⟨[("section1", .sec "" [("var1", .item "var1" (.int 2) "c1")]),
          ("section2", .sec "" [])], ""⟩ :=
  rfl

/-- C3: `update_config` does not survive a source Container whose name
is an Item in the target: resolving the child path `a.x` subscripts the
target's `ConfigItem`, which raises a `TypeError` that the
`except KeyError` clauses do not catch, so the merge aborts instead of
dropping the entry with a warning (evaluated here with the most
permissive policies, `create_new_sections = True`,
`create_new_items = True`). -/
theorem C3_update_config_crashes_on_container_over_item :
    updateConfig ⟨[("a", .item "a" (.int 1) "")], ""⟩
      ⟨[("a", .sec "" [("x", .item "x" (.int 2) "")])], ""⟩
      true (.bool true) false =
    .error "TypeError: ConfigItem object is not subscriptable" :=
  rfl

/-- C4: assigning the raw value 1 over the existing Container entry
`sub` does not replace it with an Item and emits no warning: the code
takes the `attr in self._items` branch and executes
`self._items['sub'].value = 1`, which re-enters `__setattr__` on the
subcontainer and implicitly creates a `ConfigItem` named `value` inside
it — the section stays in place with its previous contents plus the new
`value` item (the repository's own test `test_configcontainer` expects
the entry to become a `ConfigItem` instead). -/
theorem C4_raw_value_over_section_keeps_section :
    setattrC ⟨[("sub", .sec "sc" [("baz", .item "baz" (.int 7) "")])], ""⟩
      "sub" (.raw (.int 1)) =
    ⟨[("sub", .sec "sc" [("baz", .item "baz" (.int 7) ""),
                         ("value", .item "value" (.int 1) "")])], ""⟩ :=
  rfl

/-- C5: assigning a `ConfigItem` whose internal name `bar` differs from
the attribute name `baz` does not fail with any error: the first branch
of `ConfigContainer.__setattr__` stores the item unchanged under the key
`baz` (the repository's own test `test_configcontainer` expects a
`ValueError` for such a mismatched assignment). -/
theorem C5_item_name_mismatch_not_rejected :
    setattrC ⟨[], ""⟩ "baz" (.ent (.item "bar" (.int 3) "test comment")) =
    ⟨[("baz", .item "bar" (.int 3) "test comment")], ""⟩ :=
  rfl

/-- C6 counterexample: for the input `[s]`, `# a`, `# b`, `x = [1,`,
`2]` the item `x` is completed on a continuation line and its comment is
the pending comment lines joined with a single space (`a b`), not with a
newline (`a\nb`) as the claim requires for every item. -/
theorem C6_counterexample_space_join :
    parseConfigLines litEval0 ["[s]", "# a", "# b", "x = [1,", "2]"] =
      .ok ⟨[("s", .sec "" [("x", .item "x" (.list [.int 1, .int 2]) "a b")])], ""⟩ ∧
    ("a b" : String) ≠ "a\nb" :=
  ⟨rfl, by decide⟩

/-- C6 (amended): the pending comment lines are attached joined by a
newline to the next section (part 1) and to the next item whose
definition line evaluates immediately (part 2); but an item whose
definition is completed on a continuation line receives them joined by a
single space (part 3). -/
theorem C6_comment_join_amended :
    (∀ (litEval : String → Option PyVal) (lnum : Nat) (s : ParseState)
        (li secname : String) (secLevel pid plevel : Nat),
        parseSectionHeader li = some (secname, secLevel) →
        s.currentItemName = none →
        ((s.sections ++ [(s.heap.length, secLevel)]).filter
          (fun p => p.2 = secLevel - 1)).getLast? = some (pid, plevel) →
        pid < s.heap.length →
        ∃ s', step litEval lnum s li = .ok s' ∧
          s'.heap[s.heap.length]? =
            some ⟨String.intercalate "\n" s.commentLines, []⟩) ∧
    (∀ (litEval : String → Option PyVal) (lnum : Nat) (s : ParseState)
        (li nm val : String) (v : PyVal) (cid : Nat),
        s.currentItemName = none →
        parseSectionHeader li = none →
        matchComment li = none →
        isBlankLine li = false →
        parseItemDef li = some (nm, val) →
        s.currentSection = some cid →
        heapContains s.heap cid nm = false →
        litEval val = some v →
        cid < s.heap.length →
        ∃ s', step litEval lnum s li = .ok s' ∧
          lookupHeapEntry s'.heap cid nm =
            some (.it nm v (String.intercalate "\n" s.commentLines))) ∧
    (∀ (litEval : String → Option PyVal) (lnum : Nat) (s : ParseState)
        (li pname : String) (v : PyVal) (cid : Nat),
        parseSectionHeader li = none →
        matchComment li = none →
        isBlankLine li = false →
        parseItemDef li = none →
        s.currentItemName = some pname →
        litEval (String.join (s.currentDefLines ++ [trimStr li])) = some v →
        s.currentSection = some cid →
        cid < s.heap.length →
        ∃ s', step litEval lnum s li = .ok s' ∧
          lookupHeapEntry s'.heap cid pname =
            some (.it pname v (String.intercalate " " s.commentLines))) := by
  refine ⟨?_, ?_, ?_⟩
  · intro le lnum s li sn lvl pid plvl hh hp hl hlt
    obtain ⟨s', h1, _, h3⟩ := step_header_resolved le lnum s li sn lvl pid plvl hh hp hl hlt
    exact ⟨s', h1, h3⟩
  · intro le lnum s li nm val v cid hp hh hc hb hd hcur hdup hval hlt
    exact step_item_immediate le lnum s li nm val v cid hp hh hc hb hd hcur hdup hval hlt
  · intro le lnum s li pn v cid hh hc hb hd hp hval hcur hlt
    exact step_item_continuation le lnum s li pn v cid hh hc hb hd hp hval hcur hlt

/-- C6 witness: an item defined by `x = 1` right after the two pending
comment lines `a`, `b` gets the newline-joined comment. -/
theorem C6_comment_join_amended_witness :
    ∃ s', step litEval0 4
        ⟨[⟨"", [("s", .ref 1)]⟩, ⟨"", []⟩], [(0, 0), (1, 1)], some 1, none,
          ["a", "b"], []⟩ "x = 1" = .ok s' ∧
      lookupHeapEntry s'.heap 1 "x" = some (.it "x" (.int 1) "a\nb") :=
  C6_comment_join_amended.2.1 litEval0 4
    ⟨[⟨"", [("s", .ref 1)]⟩, ⟨"", []⟩], [(0, 0), (1, 1)], some 1, none,
      ["a", "b"], []⟩ "x = 1" "x" "1" (.int 1) 1
    rfl rfl rfl rfl rfl rfl rfl rfl (by decide)

/-- C7: a section header of bracket depth N is attached as a child of
the most recently opened container whose level equals N-1 (the last
matching entry of the `sections` list, which also registers the new
section itself first), and the parse fails with the missing-parent error
when no previously opened container has level N-1; concretely,
`[a]`, `[[b]]`, `[[c]]` produce sibling subsections `b`, `c` under `a`;
`[[[d]]]` right after `[[b]]` nests `d` under `b`; and a leading
`[[b]]` fails at line 1. -/
theorem C7_section_nesting :
    (∀ (litEval : String → Option PyVal) (lnum : Nat) (s : ParseState)
        (li secname : String) (secLevel : Nat),
        parseSectionHeader li = some (secname, secLevel) →
        s.currentItemName = none →
        step litEval lnum s li =
          (match ((s.sections ++ [(s.heap.length, secLevel)]).filter
              (fun p => p.2 = secLevel - 1)).getLast? with
           | none =>
               .error ("subsection outside a parent section at line " ++ toString lnum)
           | some (pid, _) =>
               .ok { heap := heapSet
                       (s.heap ++ [⟨String.intercalate "\n" s.commentLines, []⟩])
                       pid secname (.ref s.heap.length),
                     sections := s.sections ++ [(s.heap.length, secLevel)],
                     currentSection := some s.heap.length,
                     currentItemName := none,
                     commentLines := [],
                     currentDefLines := s.currentDefLines })) ∧
    parseConfigLines litEval0 ["[a]", "[[b]]", "[[c]]"] =
      .ok ⟨[("a", .sec "" [("b", .sec "" []), ("c", .sec "" [])])], ""⟩ ∧
    parseConfigLines litEval0 ["[a]", "[[b]]", "[[[d]]]"] =
      .ok ⟨[("a", .sec "" [("b", .sec "" [("d", .sec "" [])])])], ""⟩ ∧
    parseConfigLines litEval0 ["[[b]]"] =
      .error "subsection outside a parent section at line 1" :=
  ⟨step_header, rfl, rfl, rfl⟩

/-- C7 witness: a `[[b]]` header with no parent at level 1 fails with
the missing-parent error at line 1. -/
theorem C7_section_nesting_witness :
    step litEval0 1 initState "[[b]]" =
      .error "subsection outside a parent section at line 1" :=
  C7_section_nesting.1 litEval0 1 initState "[[b]]" "b" 2 rfl rfl

/-- C8: an item definition line whose name already exists in the current
section makes the parse fail with the duplicate-definition error
carrying the 1-based number of that (second) line; since the error
aborts `_parse_config_lines`, no partial tree is returned.  Concretely
`[s]`, `x = 1`, `x = 2` fails at line 3. -/
theorem C8_duplicate_definition_rejected :
    (∀ (litEval : String → Option PyVal) (lnum : Nat) (s : ParseState)
        (li nm val : String) (cid : Nat),
        s.currentItemName = none →
        parseSectionHeader li = none →
        matchComment li = none →
        isBlankLine li = false →
        parseItemDef li = some (nm, val) →
        s.currentSection = some cid →
        heapContains s.heap cid nm = true →
        step litEval lnum s li =
          .error ("duplicate definition on line " ++ toString lnum)) ∧
    parseConfigLines litEval0 ["[s]", "x = 1", "x = 2"] =
      .error "duplicate definition on line 3" :=
  ⟨step_duplicate, rfl⟩

/-- C8 witness: the duplicate `x = 2` at line 3 of a state whose current
section already holds `x` errors with the duplicate message. -/
theorem C8_duplicate_definition_rejected_witness :
    step litEval0 3
      ⟨[⟨"", [("s", .ref 1)]⟩, ⟨"", [("x", .it "x" (.int 1) "")]⟩],
        [(0, 0), (1, 1)], some 1, none, [], []⟩ "x = 2" =
      .error "duplicate definition on line 3" :=
  C8_duplicate_definition_rejected.1 litEval0 3
    ⟨[⟨"", [("s", .ref 1)]⟩, ⟨"", [("x", .it "x" (.int 1) "")]⟩],
      [(0, 0), (1, 1)], some 1, none, [], []⟩ "x = 2" "x" "2" 1
    rfl rfl rfl rfl rfl rfl rfl

/-- C9: a section header whose name already exists under the resolved
parent raises no error: the parent's entry is silently replaced by a
reference to the freshly allocated container, which carries the pending
comments and no items, so the previously built container and all its
parsed entries are discarded from the tree.  Concretely `[a]`, `x = 1`,
`[a]` parses to a root whose only entry is an empty section `a`. -/
theorem C9_duplicate_section_silently_replaced :
    (∀ (litEval : String → Option PyVal) (lnum : Nat) (s : ParseState)
        (li secname : String) (secLevel pid plevel : Nat),
        parseSectionHeader li = some (secname, secLevel) →
        s.currentItemName = none →
        ((s.sections ++ [(s.heap.length, secLevel)]).filter
          (fun p => p.2 = secLevel - 1)).getLast? = some (pid, plevel) →
        heapContains s.heap pid secname = true →
        ∃ s', step litEval lnum s li = .ok s' ∧
          lookupHeapEntry s'.heap pid secname = some (.ref s.heap.length) ∧
          s'.heap[s.heap.length]? =
            some ⟨String.intercalate "\n" s.commentLines, []⟩) ∧
    parseConfigLines litEval0 ["[a]", "x = 1", "[a]"] =
      .ok ⟨[("a", .sec "" [])], ""⟩ := by
  refine ⟨?_, rfl⟩
  intro le lnum s li sn lvl pid plvl hh hp hl hdup
  exact step_header_resolved le lnum s li sn lvl pid plvl hh hp hl
    (heapContains_lt _ _ _ hdup)

/-- C9 witness: re-using the section name `a` (already present in the
root) at line 3 succeeds and replaces the root's entry by a fresh empty
container. -/
theorem C9_duplicate_section_silently_replaced_witness :
    ∃ s', step litEval0 3
        ⟨[⟨"", [("a", .ref 1)]⟩, ⟨"", [("x", .it "x" (.int 1) "")]⟩],
          [(0, 0), (1, 1)], some 1, none, [], []⟩ "[a]" = .ok s' ∧
      lookupHeapEntry s'.heap 0 "a" = some (.ref 2) ∧
      s'.heap[2]? = some ⟨"", []⟩ :=
  C9_duplicate_section_silently_replaced.1 litEval0 3
    ⟨[⟨"", [("a", .ref 1)]⟩, ⟨"", [("x", .it "x" (.int 1) "")]⟩],
      [(0, 0), (1, 1)], some 1, none, [], []⟩ "[a]" "a" 1 0 0
    rfl rfl rfl rfl

/-- C10: `dump_config` only traverses the entries of the root container
and never emits the root's own comment, so two trees that differ only in
the root comment serialize to the identical string (for every pformat
function). -/
theorem C10_dump_ignores_root_comment :
    ∀ (pformat : PyVal → String) (items : List (String × ConfigEntry))
      (c1 c2 : String),
      dumpConfig pformat ⟨items, c1⟩ = dumpConfig pformat ⟨items, c2⟩ :=
  fun _ _ _ _ => rfl

end Configdot
